import Mathlib

/-!
Shallow embedding of the streaming-normalization core of the
Vaayne/openai-dashboard repository (Go), and proofs of the frozen claims
about it.

Conventions of the embedding:
* Go channels: sends by a producer goroutine on its two channels
  (`dataChan`, `errChan`) are modelled as a single emission trace
  `List (StreamMsg α)` in program order; the constructor records which of
  the two disjoint channels the message went to.
* Go errors are modelled by the inductive `GoError`; `fmt.Errorf` wrapping
  is modelled by `GoError.wrapped` with the format string's static prefix
  as context.  No code path in this repository wraps `io.EOF`, so
  `errors.Is(err, io.EOF)` is modelled by the top-level `GoError.isEOF`.
* External library calls (the AWS SDK event stream, `encoding/json`
  decoding, `tiktoken` encoding, HTTP round trips) are inputs of the
  embedded functions: the upstream events / call results / decoder are
  passed in explicitly, and the functions reproduce the repository's
  control flow over them.
-/

namespace llm

/-- Model of Go `error` values as used by the adapters.  `wrapped ctx e`
models `fmt.Errorf(ctx ++ ..., e)`; no adapter wraps `io.EOF`. -/
inductive GoError where
  | eof
  | str (s : String)
  | wrapped (ctx : String) (inner : GoError)
deriving Repr, DecidableEq

/-- Model of `errors.Is(err, io.EOF)` for the error values this code
produces (none of which wrap `io.EOF` with `%w`). -/
def GoError.isEOF : GoError → Bool
  | .eof => true
  | _ => false

/-- One message emitted by a streaming producer: either a data record sent
on the data channel, or a terminal/error value sent on the error channel. -/
inductive StreamMsg (α : Type) where
  | data (d : α)
  | errMsg (e : GoError)
deriving Repr, DecidableEq

/-- Decides whether a producer trace consists of data records followed by
exactly one message on the error channel, with nothing after it. -/
def terminalOnce {α : Type} : List (StreamMsg α) → Bool
  | [] => false
  | .data _ :: rest => terminalOnce rest
  | .errMsg _ :: rest => rest.isEmpty

/-- Projection of a trace onto the data channel. -/
def dataMsgs {α : Type} (t : List (StreamMsg α)) : List α :=
  t.filterMap fun m => match m with
    | .data d => some d
    | .errMsg _ => none

/-- Projection of a trace onto the error channel. -/
def errMsgs {α : Type} (t : List (StreamMsg α)) : List GoError :=
  t.filterMap fun m => match m with
    | .data _ => none
    | .errMsg e => some e

/-- Internal chat request (`llm.ChatCompletionRequest`); only the fields
the claims depend on are carried. -/
structure ChatCompletionRequest where
  model : String
  prompt : String
  stream : Bool
deriving Repr, DecidableEq

/-- Modelled from the spec: the uniform incremental-response record
`{ delta_text, model, finish_reason }` (the repository's
`llm.ChatCompletionStreamResponse`, whose defining file is not under
`src/`). -/
structure ChatCompletionStreamResponse where
  delta_text : String
  model : String
  finish_reason : String
deriving Repr, DecidableEq

end llm

namespace claude

/-- Decoded form of one Bedrock chunk body (`BedrockResponse`); only the
fields the claims depend on are carried (`Completion`, `StopReason`). -/
structure BedrockResponse where
  completion : String
  stop_reason : String
deriving Repr, DecidableEq

/-- Modelled from the spec: `BedrockResponse.ToChatCompletionStreamResponse`
is defined in a file of this repository not present under `src/`; per the
spec it produces the uniform record from the decoded chunk. -/
def BedrockResponse.ToChatCompletionStreamResponse (r : BedrockResponse) :
    llm.ChatCompletionStreamResponse :=
  { delta_text := r.completion
    model := "anthropic.claude-v2"
    finish_reason := r.stop_reason }

/-- One event received from `output.GetStream().Events()`.  A `chunk`
carries the result of `json.Decode` on its bytes (the decoder is Go
standard library code, so its outcome is an input of the model).  An
upstream connection that drops mid-stream closes the events channel, i.e.
it truncates the event list. -/
inductive BedrockEvent where
  | chunk (decoded : Except llm.GoError BedrockResponse)
  | unknownUnion
  | other
deriving Repr

/-- The `for event := range output.GetStream().Events()` loop of
`Client.CreateChatCompletionStream` (src/pkg/llm/claude/client.go:101-126).
The local `strings.Builder` `sb` is written but never read in the source,
so it is not carried here. -/
def streamLoop : List BedrockEvent → List (llm.StreamMsg llm.ChatCompletionStreamResponse)
  | [] => [.errMsg .eof]
  | .chunk (.error e) :: _ => [.errMsg e]
  | .chunk (.ok r) :: rest => .data r.ToChatCompletionStreamResponse :: streamLoop rest
  | .unknownUnion :: _ => [.errMsg (.str "unknown event type")]
  | .other :: _ => [.errMsg (.str "unknown event type")]

/-- `Client.CreateChatCompletionStream` (src/pkg/llm/claude/client.go:84-127).
`callRes` is the outcome of the single `InvokeModelWithResponseStream`
call: either its error, or the sequence of events its stream yields before
closing. -/
def Client.CreateChatCompletionStream
    (callRes : Except llm.GoError (List BedrockEvent)) :
    List (llm.StreamMsg llm.ChatCompletionStreamResponse) :=
  match callRes with
  | .error e => [.errMsg e]
  | .ok events => streamLoop events

end claude

namespace together

/-- Modelled from the spec: the Together provider request shape
(`TogetherChatRequest`, defined in a file not under `src/`); a one-to-one
translation of the internal request, carrying its `Stream` flag. -/
structure TogetherChatRequest where
  model : String
  prompt : String
  stream : Bool
deriving Repr, DecidableEq

/-- Modelled from the spec: `FromChatCompletionRequest` is a straightforward
one-to-one translation of request shapes, copying the fields (including
the `Stream` flag) from the internal request. -/
def TogetherChatRequest.FromChatCompletionRequest
    (req : llm.ChatCompletionRequest) : TogetherChatRequest :=
  { model := req.model, prompt := req.prompt, stream := req.stream }

/-- Modelled from the spec: one record parsed by `llm.ParseSSE` from the
Together response body (`TogetherChatResponse`, defined in a file not
under `src/`). -/
structure TogetherChatResponse where
  text : String
deriving Repr, DecidableEq

/-- Modelled from the spec: conversion of a Together record to the uniform
incremental-response record. -/
def TogetherChatResponse.ToChatCompletionStreamResponse
    (r : TogetherChatResponse) : llm.ChatCompletionStreamResponse :=
  { delta_text := r.text, model := "together", finish_reason := "" }

/-- The request-construction prefix of `Client.CreateChatCompletion`
(src/unnamed/part_001: `req.Stream = false` followed by
`togReq.FromChatCompletionRequest(req)`); the provider request that the
subsequent HTTP POST sends. -/
def Client.CreateChatCompletion (req : llm.ChatCompletionRequest) :
    TogetherChatRequest :=
  TogetherChatRequest.FromChatCompletionRequest { req with stream := false }

/-- The `for { select { ... } }` forwarding loop of
`Client.CreateChatCompletionStream`: data records from the inner channel
are converted and forwarded one-to-one; the first message on the inner
error channel is forwarded to `errChan` and the function returns. -/
def forwardLoop :
    List (llm.StreamMsg TogetherChatResponse) →
    List (llm.StreamMsg llm.ChatCompletionStreamResponse)
  | [] => []
  | .data d :: rest => .data d.ToChatCompletionStreamResponse :: forwardLoop rest
  | .errMsg e :: _ => [.errMsg e]

/-- `Client.CreateChatCompletionStream` (src/unnamed/part_001:166-200).
`marshalErr` is the outcome of `json.Marshal(togReq)` (Go standard
library), `callRes` the outcome of the single HTTP call; on success it
carries the merged trace of messages `llm.ParseSSE` (not under `src/`)
sends on the inner channels, in order.  Returns the provider request that
was built and the trace of sends on `dataChan`/`errChan`. -/
def Client.CreateChatCompletionStream (req : llm.ChatCompletionRequest)
    (marshalErr : Option llm.GoError)
    (callRes : Except llm.GoError (List (llm.StreamMsg TogetherChatResponse))) :
    TogetherChatRequest × List (llm.StreamMsg llm.ChatCompletionStreamResponse) :=
  let togReq := TogetherChatRequest.FromChatCompletionRequest { req with stream := true }
  match marshalErr with
  | some e =>
    (togReq, [.errMsg (.wrapped "create chat completion stream marshal request error" e)])
  | none =>
    match callRes with
    | .error e => (togReq, [.errMsg (.wrapped "create chat completion stream error" e)])
    | .ok inner => (togReq, forwardLoop inner)

end together

namespace claudeweb

/-- Modelled from the spec/usage: `ChatMessageResponse` (its defining file
is not under `src/`); only `Completion` and a stop-reason field are
carried — `Completion` is the only field the claims depend on. -/
structure ChatMessageResponse where
  completion : String
  stop_reason : String
deriving Repr, DecidableEq

/-- Splits a raw byte stream as successive `bufio.Reader.ReadBytes('\n')`
calls deliver it: each returned line includes its trailing newline
(byte 10); a final unterminated fragment is returned together with the
read error (`io.EOF` or a network error) on the last call. -/
def splitLines : List Nat → List (List Nat) × List Nat
  | [] => ([], [])
  | b :: rest =>
    if b = 10 then
      let out := splitLines rest
      ([10] :: out.1, out.2)
    else
      match splitLines rest with
      | ([], frag) => ([], b :: frag)
      | (l :: ls, frag) => ((b :: l) :: ls, frag)

/-- The newline-terminated lines whose length exceeds 6 bytes — the ones
the `len(line) > 6` check lets through. -/
def longLines (ls : List (List Nat)) : List (List Nat) :=
  ls.filter fun l => decide (6 < l.length)

/-- The upstream response body as the read loop consumes it: the bytes
delivered before the stream ends, and the non-EOF read error that ends it,
if any (`none` means the read ends with a clean `io.EOF`). -/
structure UpstreamBody where
  bytes : List Nat
  readErr : Option llm.GoError
deriving Repr, DecidableEq

/-- A decoder that always succeeds: models `json.Unmarshal` runs in which
every presented payload is well-formed JSON. -/
def okDec (f : List Nat → ChatMessageResponse) :
    List Nat → Except llm.GoError ChatMessageResponse :=
  fun bs => .ok (f bs)

/-- The read loop of `ClaudeWeb.CreateChatMessageStream`
(src/pkg/llm/claude/client.go:426-448) over the terminated lines of the
body and its terminating read result.  `dec` is the outcome of
`json.Unmarshal` on `line[6:]` (Go standard library).  Lines of 6 bytes
or fewer are skipped; a decode failure or the read result terminates the
loop with one message on the error channel. -/
def streamLoop (dec : List Nat → Except llm.GoError ChatMessageResponse) :
    List (List Nat) → Option llm.GoError → List (llm.StreamMsg ChatMessageResponse)
  | [], none => [.errMsg .eof]
  | [], some e => [.errMsg (.wrapped "createChatMessageStream read response body err" e)]
  | l :: rest, t =>
    if 6 < l.length then
      match dec (l.drop 6) with
      | .error e => [.errMsg (.wrapped "createChatMessageStream unmarshal response body err" e)]
      | .ok r => .data r :: streamLoop dec rest t
    else streamLoop dec rest t

/-- `ClaudeWeb.CreateChatMessageStream` (src/pkg/llm/claude/client.go:409-448).
`call` is the outcome of the single `createChatMessage` HTTP call: its
error, or the status code and the response body.  The `statusCode >= 400`
branch of the source is kept even though `request` already turns such
statuses into errors. -/
def ClaudeWeb.CreateChatMessageStream
    (dec : List Nat → Except llm.GoError ChatMessageResponse)
    (call : Except llm.GoError (Nat × UpstreamBody)) :
    List (llm.StreamMsg ChatMessageResponse) :=
  match call with
  | .error e => [.errMsg (.wrapped "CreateChatMessage failed with status_code" e)]
  | .ok (status, body) =>
    if 400 ≤ status then [.errMsg (.str "CreateChatMessage status_code err")]
    else streamLoop dec (splitLines body.bytes).1 body.readErr

/-- The read loop of `ClaudeWeb.CreateChatMessage`
(src/pkg/llm/claude/client.go:389-406): iterates the terminated lines,
decoding each line longer than 6 bytes into the (reused) response variable
and appending its `Completion` to the string builder; returns the last
decoded response together with the accumulated builder contents. -/
def msgLoop (dec : List Nat → Except llm.GoError ChatMessageResponse) :
    List (List Nat) → ChatMessageResponse → String →
    Except llm.GoError (ChatMessageResponse × String)
  | [], last, acc => .ok (last, acc)
  | l :: rest, last, acc =>
    if 6 < l.length then
      match dec (l.drop 6) with
      | .error e => .error (.wrapped "CreateChatMessage unmarshal response body err" e)
      | .ok r => msgLoop dec rest r (acc ++ r.completion)
    else msgLoop dec rest last acc

/-- `ClaudeWeb.CreateChatMessage` (src/pkg/llm/claude/client.go:367-407).
Processes the terminated lines, then the terminating read result: a clean
`io.EOF` breaks the loop and the final response is the last decoded
response with its `Completion` replaced by the concatenation built so
far; any other read error is returned as an error. -/
def ClaudeWeb.CreateChatMessage
    (dec : List Nat → Except llm.GoError ChatMessageResponse)
    (call : Except llm.GoError (Nat × UpstreamBody)) :
    Except llm.GoError ChatMessageResponse :=
  match call with
  | .error e => .error (.wrapped "CreateChatMessage err" e)
  | .ok (status, body) =>
    if 400 ≤ status then .error (.str "CreateChatMessage status_code err")
    else
      match msgLoop dec (splitLines body.bytes).1 ⟨"", ""⟩ "" with
      | .error e => .error e
      | .ok (last, acc) =>
        match body.readErr with
        | some e => .error (.wrapped "CreateChatMessage read response body err" e)
        | none => .ok { last with completion := acc }

/-- The concatenation, in order, of the `Completion` fields decoded from
the lines longer than 6 bytes (phrased from the claim, to be compared with
what `CreateChatMessage` returns). -/
def completionConcat (dec : List Nat → Except llm.GoError ChatMessageResponse) :
    List (List Nat) → String
  | [] => ""
  | l :: rest =>
    (if 6 < l.length then
      match dec (l.drop 6) with
      | .ok r => r.completion
      | .error _ => ""
     else "") ++ completionConcat dec rest

end claudeweb

namespace bard

/-- Outcome of the validation prefix of `NewBardClient`: either the early
rejection (nil client plus error), or proceeding to build the client —
cookie setup and the `initMeta` network call happen only in the `proceed`
branch. -/
inductive BardInit where
  | rejected (msg : String)
  | proceed (token : String)
deriving Repr, DecidableEq

/-- The token validation of `NewBardClient` (src/pkg/bard/client.go:46-49):
`token == "" || !strings.HasSuffix(token, ".")` returns a nil client and
an error before any network call. -/
def NewBardClient (token : String) : BardInit :=
  if token == "" || !(String.endsWith token ".") then
    .rejected ("__Secure-1PSID value must end with a single dot. Enter correct __Secure-1PSID value: " ++ token)
  else .proceed token

end bard

namespace usage

/-- One chat message (`openai.ChatCompletionMessage`); only `Content`
matters to the token accounting. -/
structure ChatCompletionMessage where
  role : String
  content : String
deriving Repr, DecidableEq

/-- The usage recorder's tokenizer handle.  `encodeFn` models
`tiktoken.Tiktoken.Encode` (external library): the token-id sequence it
produces for a text. -/
structure Token where
  encodeFn : String → List Nat

/-- `Token.Encode` (usage package): `len(t.Tiktoken.Encode(text, nil, nil))`. -/
def Token.Encode (t : Token) (text : String) : Nat :=
  (t.encodeFn text).length

/-- `Token.CalculateTotalTokensFromMessages` (usage package): starts from 0
and adds `Encode(message.Content)` for each message in order. -/
def Token.CalculateTotalTokensFromMessages (t : Token)
    (messages : List ChatCompletionMessage) : Nat :=
  messages.foldl (fun totalTokens message => totalTokens + t.Encode message.content) 0

end usage

namespace handler

/-- How an SSE relay handler returns: `doneOk` is
`c.String(200, "data: [DONE]\n\n")`, `internalError` is
`c.String(500, err.Error())`, and `blocked` marks the loop still waiting
on its channels when the producer trace is exhausted. -/
inductive SSEOutcome where
  | doneOk
  | internalError (e : llm.GoError)
  | blocked
deriving Repr, DecidableEq

/-- A marshaller that always succeeds (models `json.Marshal` runs on
marshallable records). -/
def okMarshal {α : Type} (f : α → String) : α → Except String String :=
  fun a => .ok (f a)

/-- A response writer whose writes all succeed. -/
def okWrite : String → Except String Unit :=
  fun _ => .ok ()

/-- The `for { select { ... } }` relay loop of `LLMHandler.chatStream`
(src/internal/ports/httpserver/handler/openai.go:315-335), consuming the
producer trace in order.  Returns the SSE frames written and how the
handler returned.  `marshal` is `json.Marshal`, `write` the response
writer. -/
def LLMHandler.chatStream
    (marshal : llm.ChatCompletionStreamResponse → Except String String)
    (write : String → Except String Unit) :
    List (llm.StreamMsg llm.ChatCompletionStreamResponse) →
    List String × SSEOutcome
  | [] => ([], .blocked)
  | .data d :: rest =>
    match marshal d with
    | .error m => ([], .internalError (.str m))
    | .ok s =>
      match write ("data: " ++ s ++ "\n\n") with
      | .error m => ([], .internalError (.str m))
      | .ok _ =>
        let out := LLMHandler.chatStream marshal write rest
        (("data: " ++ s ++ "\n\n") :: out.1, out.2)
  | .errMsg e :: _ =>
    ([], if e.isEOF then .doneOk else .internalError e)

/-- Number of messages `LLMHandler.chatStream` receives from the two
channels before returning: each received message unblocks one producer
send. -/
def LLMHandler.consumed
    (marshal : llm.ChatCompletionStreamResponse → Except String String)
    (write : String → Except String Unit) :
    List (llm.StreamMsg llm.ChatCompletionStreamResponse) → Nat
  | [] => 0
  | .data d :: rest =>
    match marshal d with
    | .error _ => 1
    | .ok s =>
      match write ("data: " ++ s ++ "\n\n") with
      | .error _ => 1
      | .ok _ => 1 + LLMHandler.consumed marshal write rest
  | .errMsg _ :: _ => 1

/-- One incremental response from the go-openai stream (external library);
only a representative content field is carried. -/
structure OpenAIStreamResponse where
  content : String
deriving Repr, DecidableEq

/-- The zero value `openai.ChatCompletionStreamResponse{}` that
`stream.Recv()` returns alongside an error. -/
def zeroOpenAIStreamResponse : OpenAIStreamResponse := { content := "" }

/-- The relay loop of `OpenAIHandler.chatStream`
(src/internal/ports/httpserver/handler/openai.go:85-100).  Each list entry
is one `(resp, err)` result of `stream.Recv()`.  The source checks only
`errors.Is(err, io.EOF)`; a non-EOF `err` is never examined — the loop
falls through, marshals `resp` (the zero value) and keeps relaying. -/
def OpenAIHandler.chatStream
    (marshal : OpenAIStreamResponse → Except String String)
    (write : String → Except String Unit) :
    List (OpenAIStreamResponse × Option llm.GoError) →
    List String × SSEOutcome
  | [] => ([], .blocked)
  | (resp, e) :: rest =>
    if (match e with | some ge => ge.isEOF | none => false) then ([], .doneOk)
    else
      match marshal resp with
      | .error m => ([], .internalError (.str m))
      | .ok s =>
        match write ("data: " ++ s ++ "\n\n") with
        | .error m => ([], .internalError (.str m))
        | .ok _ =>
          let out := OpenAIHandler.chatStream marshal write rest
          (("data: " ++ s ++ "\n\n") :: out.1, out.2)

end handler

/-! ## Shared lemmas about traces -/

theorem terminalOnce_map_data_append {α : Type} (ds : List α) (e : llm.GoError) :
    llm.terminalOnce (ds.map llm.StreamMsg.data ++ [llm.StreamMsg.errMsg e]) = true := by
  induction ds with
  | nil => rfl
  | cons d rest ih => simpa [llm.terminalOnce] using ih

theorem terminalOnce_decomp {α : Type} (t : List (llm.StreamMsg α))
    (h : llm.terminalOnce t = true) :
    ∃ (recs : List α) (e : llm.GoError),
      t = recs.map llm.StreamMsg.data ++ [llm.StreamMsg.errMsg e] := by
  induction t with
  | nil => exact absurd h (by simp [llm.terminalOnce])
  | cons m rest ih =>
    cases m with
    | data d =>
      obtain ⟨recs, e, hr⟩ := ih (by simpa [llm.terminalOnce] using h)
      exact ⟨d :: recs, e, by simp [hr]⟩
    | errMsg e =>
      have hrest : rest = [] := by
        simpa [llm.terminalOnce, List.isEmpty_iff] using h
      exact ⟨[], e, by simp [hrest]⟩

theorem dataMsgs_errMsgs_length {α : Type} (t : List (llm.StreamMsg α)) :
    (llm.dataMsgs t).length + (llm.errMsgs t).length = t.length := by
  induction t with
  | nil => rfl
  | cons m rest ih =>
    cases m with
    | data d => simp [llm.dataMsgs, llm.errMsgs] at ih ⊢; omega
    | errMsg e => simp [llm.dataMsgs, llm.errMsgs] at ih ⊢; omega

/-! ## Lemmas about the Bedrock adapter loop -/

theorem claude_streamLoop_terminalOnce (events : List claude.BedrockEvent) :
    llm.terminalOnce (claude.streamLoop events) = true := by
  induction events with
  | nil => rfl
  | cons ev rest ih =>
    cases ev with
    | chunk d =>
      cases d with
      | error e => rfl
      | ok r => simpa [claude.streamLoop, llm.terminalOnce] using ih
    | unknownUnion => rfl
    | other => rfl

theorem claude_streamLoop_goods (goods : List claude.BedrockResponse)
    (rest : List claude.BedrockEvent) :
    claude.streamLoop
        (goods.map (fun r => claude.BedrockEvent.chunk (.ok r)) ++ rest)
      = goods.map (fun r => llm.StreamMsg.data r.ToChatCompletionStreamResponse)
          ++ claude.streamLoop rest := by
  induction goods with
  | nil => rfl
  | cons g gs ih => simp [claude.streamLoop, ih]

/-! ## Lemmas about the Together forwarding loop -/

theorem together_forwardLoop_map (datas : List together.TogetherChatResponse)
    (e : llm.GoError) :
    together.forwardLoop (datas.map llm.StreamMsg.data ++ [llm.StreamMsg.errMsg e])
      = datas.map (fun d => llm.StreamMsg.data d.ToChatCompletionStreamResponse)
          ++ [llm.StreamMsg.errMsg e] := by
  induction datas with
  | nil => rfl
  | cons d rest ih => simp [together.forwardLoop, ih]

/-! ## Lemmas about the ClaudeWeb read loops -/

theorem claudeweb_streamLoop_terminalOnce
    (dec : List Nat → Except llm.GoError claudeweb.ChatMessageResponse)
    (ls : List (List Nat)) (t : Option llm.GoError) :
    llm.terminalOnce (claudeweb.streamLoop dec ls t) = true := by
  induction ls with
  | nil => cases t <;> rfl
  | cons l rest ih =>
    by_cases hl : 6 < l.length
    · cases hdec : dec (l.drop 6) with
      | error e => simp [claudeweb.streamLoop, hl, hdec, llm.terminalOnce]
      | ok r => simpa [claudeweb.streamLoop, hl, hdec, llm.terminalOnce] using ih
    · simpa [claudeweb.streamLoop, hl] using ih

theorem claudeweb_streamLoop_okDec (f : List Nat → claudeweb.ChatMessageResponse)
    (ls : List (List Nat)) (t : Option llm.GoError) :
    claudeweb.streamLoop (claudeweb.okDec f) ls t
      = (claudeweb.longLines ls).map (fun l => llm.StreamMsg.data (f (l.drop 6)))
          ++ claudeweb.streamLoop (claudeweb.okDec f) [] t := by
  induction ls with
  | nil => simp [claudeweb.longLines]
  | cons l rest ih =>
    by_cases hl : 6 < l.length
    · simp [claudeweb.streamLoop, claudeweb.okDec, hl, claudeweb.longLines, List.filter, ih]
    · simp [claudeweb.streamLoop, claudeweb.okDec, hl, claudeweb.longLines, List.filter, ih]

theorem claudeweb_streamLoop_firstBad
    (dec : List Nat → Except llm.GoError claudeweb.ChatMessageResponse)
    (pre : List (List Nat)) (bad : List Nat) (post : List (List Nat))
    (t : Option llm.GoError) (e : llm.GoError)
    (hpre : ∀ l ∈ pre, 6 < l.length → (dec (l.drop 6)).isOk = true)
    (hbadlen : 6 < bad.length)
    (hbad : dec (bad.drop 6) = .error e) :
    ∃ ds : List claudeweb.ChatMessageResponse,
      claudeweb.streamLoop dec (pre ++ bad :: post) t
      = ds.map llm.StreamMsg.data
          ++ [llm.StreamMsg.errMsg
               (.wrapped "createChatMessageStream unmarshal response body err" e)] := by
  induction pre with
  | nil =>
    refine ⟨[], ?_⟩
    simp [claudeweb.streamLoop, hbadlen, hbad]
  | cons l rest ih =>
    by_cases hl : 6 < l.length
    · have hok := hpre l (by simp) hl
      cases hdec : dec (l.drop 6) with
      | error e2 => rw [hdec] at hok; simp [Except.isOk, Except.toBool] at hok
      | ok r =>
        obtain ⟨ds, hds⟩ := ih (fun x hx => hpre x (List.mem_cons_of_mem l hx))
        refine ⟨r :: ds, ?_⟩
        simp [claudeweb.streamLoop, hl, hdec, hds]
    · obtain ⟨ds, hds⟩ := ih (fun x hx => hpre x (List.mem_cons_of_mem l hx))
      refine ⟨ds, ?_⟩
      simpa [claudeweb.streamLoop, hl] using hds

theorem claudeweb_msgLoop_ok
    (dec : List Nat → Except llm.GoError claudeweb.ChatMessageResponse)
    (ls : List (List Nat)) (last : claudeweb.ChatMessageResponse) (acc : String)
    (h : ∀ l ∈ ls, 6 < l.length → ∃ r, dec (l.drop 6) = .ok r) :
    ∃ fin, claudeweb.msgLoop dec ls last acc = .ok fin
      ∧ fin.2 = acc ++ claudeweb.completionConcat dec ls := by
  induction ls generalizing last acc with
  | nil => exact ⟨(last, acc), rfl, by simp [claudeweb.completionConcat]⟩
  | cons l rest ih =>
    by_cases hl : 6 < l.length
    · obtain ⟨r, hr⟩ := h l (by simp) hl
      obtain ⟨fin, hfin, hacc⟩ :=
        ih r (acc ++ r.completion) (fun x hx => h x (List.mem_cons_of_mem l hx))
      refine ⟨fin, ?_, ?_⟩
      · simp [claudeweb.msgLoop, hl, hr, hfin]
      · rw [hacc]
        simp [claudeweb.completionConcat, hl, hr, String.append_assoc]
    · obtain ⟨fin, hfin, hacc⟩ :=
        ih last acc (fun x hx => h x (List.mem_cons_of_mem l hx))
      refine ⟨fin, ?_, ?_⟩
      · simp [claudeweb.msgLoop, hl, hfin]
      · rw [hacc]; simp [claudeweb.completionConcat, hl]

/-! ## Lemmas about the handler relay loops -/

theorem llmHandler_consumed_full
    (f : llm.ChatCompletionStreamResponse → String)
    (datas : List llm.ChatCompletionStreamResponse) (e : llm.GoError) :
    handler.LLMHandler.consumed (handler.okMarshal f) handler.okWrite
        (datas.map llm.StreamMsg.data ++ [llm.StreamMsg.errMsg e])
      = datas.length + 1 := by
  induction datas with
  | nil => rfl
  | cons d rest ih =>
    simp [handler.LLMHandler.consumed, handler.okMarshal, handler.okWrite] at ih ⊢
    omega

theorem dataMsgs_of_data_mapped {α β : Type} (g : α → β) (ls : List α) (e : llm.GoError) :
    llm.dataMsgs (ls.map (fun l => llm.StreamMsg.data (g l)) ++ [llm.StreamMsg.errMsg e])
      = ls.map g := by
  induction ls with
  | nil => rfl
  | cons x rest ih => simpa [llm.dataMsgs] using ih

/-! ## Claim theorems -/

/-- C1: for every run of a provider adapter's streaming operation, exactly one
terminal signal (io.EOF or an error) is delivered on the error channel as the
last emitted message, and never a second one after it: the Bedrock adapter over
any call result and any upstream event sequence (a connection dropping
mid-stream truncates the sequence and still yields the single io.EOF terminal),
the ClaudeWeb adapter over any call result, decoder behaviour and body, and the
Together adapter over its error paths and over any inner trace its SSE parser
delivers (data records followed by the parser's single terminal signal). -/
theorem c1_exactly_one_terminal_signal :
    (∀ callRes, llm.terminalOnce (claude.Client.CreateChatCompletionStream callRes) = true)
  ∧ (∀ dec call,
      llm.terminalOnce (claudeweb.ClaudeWeb.CreateChatMessageStream dec call) = true)
  ∧ (∀ req me e,
      llm.terminalOnce
        (together.Client.CreateChatCompletionStream req me (.error e)).2 = true)
  ∧ (∀ req me (datas : List together.TogetherChatResponse) e,
      llm.terminalOnce
        (together.Client.CreateChatCompletionStream req me
          (.ok (datas.map llm.StreamMsg.data ++ [llm.StreamMsg.errMsg e]))).2 = true) := by
  refine ⟨?_, ?_, ?_, ?_⟩
  · intro callRes
    cases callRes with
    | error e => rfl
    | ok events => exact claude_streamLoop_terminalOnce events
  · intro dec call
    cases call with
    | error e => rfl
    | ok sc =>
      obtain ⟨status, body⟩ := sc
      by_cases hs : 400 ≤ status
      · simp [claudeweb.ClaudeWeb.CreateChatMessageStream, hs, llm.terminalOnce]
      · simpa [claudeweb.ClaudeWeb.CreateChatMessageStream, hs] using
          claudeweb_streamLoop_terminalOnce dec (claudeweb.splitLines body.bytes).1
            body.readErr
  · intro req me e
    cases me <;> rfl
  · intro req me datas e
    cases me with
    | some e2 => rfl
    | none =>
      simp only [together.Client.CreateChatCompletionStream]
      rw [together_forwardLoop_map]
      simpa [List.map_map, Function.comp] using
        terminalOnce_map_data_append
          (datas.map together.TogetherChatResponse.ToChatCompletionStreamResponse) e

/-- C2: the output of a streaming run is an ordered sequence of
incremental-response data records on the single data channel, followed by the
distinguished end-of-stream signal on the error channel; the terminal signal is
not a data record, is never sent on the data channel, and no data record is
emitted after it. -/
theorem c2_records_then_end_of_stream :
    (∀ callRes, ∃ (recs : List llm.ChatCompletionStreamResponse) (e : llm.GoError),
        claude.Client.CreateChatCompletionStream callRes
          = recs.map llm.StreamMsg.data ++ [llm.StreamMsg.errMsg e])
  ∧ (∀ req me (datas : List together.TogetherChatResponse) e,
      ∃ (recs : List llm.ChatCompletionStreamResponse) (e2 : llm.GoError),
        (together.Client.CreateChatCompletionStream req me
            (.ok (datas.map llm.StreamMsg.data ++ [llm.StreamMsg.errMsg e]))).2
          = recs.map llm.StreamMsg.data ++ [llm.StreamMsg.errMsg e2])
  ∧ (∀ req me e, ∃ e2 : llm.GoError,
      (together.Client.CreateChatCompletionStream req me (.error e)).2
        = [llm.StreamMsg.errMsg e2]) := by
  refine ⟨?_, ?_, ?_⟩
  · intro callRes
    cases callRes with
    | error e => exact ⟨[], e, rfl⟩
    | ok events => exact terminalOnce_decomp _ (claude_streamLoop_terminalOnce events)
  · intro req me datas e
    cases me with
    | some e2 =>
      exact ⟨[], .wrapped "create chat completion stream marshal request error" e2, rfl⟩
    | none =>
      refine ⟨datas.map together.TogetherChatResponse.ToChatCompletionStreamResponse, e, ?_⟩
      simp only [together.Client.CreateChatCompletionStream]
      rw [together_forwardLoop_map]
      simp [List.map_map]
  · intro req me e
    cases me with
    | some e2 =>
      exact ⟨.wrapped "create chat completion stream marshal request error" e2, rfl⟩
    | none => exact ⟨.wrapped "create chat completion stream error" e, rfl⟩

/-- C3: every upstream failure — a network error on the initial call, a chunk
whose JSON fails to decode, an unknown event type, a read error mid-body, or a
line whose JSON fails to decode — is forwarded as the terminal error signal on
the error channel and the adapter stops there: for the Bedrock adapter, events
after the failing one are never processed (the trace is independent of them),
and for the ClaudeWeb adapter the trace ends at the first failing line.  No
second upstream request is expressed anywhere: each adapter's entire trace is a
function of its single call's result. -/
theorem c3_failures_forwarded_without_retry :
    (∀ e, claude.Client.CreateChatCompletionStream (.error e) = [llm.StreamMsg.errMsg e])
  ∧ (∀ (goods : List claude.BedrockResponse) e trailing,
      claude.Client.CreateChatCompletionStream
          (.ok (goods.map (fun r => claude.BedrockEvent.chunk (.ok r))
                ++ claude.BedrockEvent.chunk (.error e) :: trailing))
        = goods.map (fun r => llm.StreamMsg.data r.ToChatCompletionStreamResponse)
            ++ [llm.StreamMsg.errMsg e])
  ∧ (∀ (goods : List claude.BedrockResponse) trailing,
      claude.Client.CreateChatCompletionStream
          (.ok (goods.map (fun r => claude.BedrockEvent.chunk (.ok r))
                ++ claude.BedrockEvent.unknownUnion :: trailing))
        = goods.map (fun r => llm.StreamMsg.data r.ToChatCompletionStreamResponse)
            ++ [llm.StreamMsg.errMsg (.str "unknown event type")])
  ∧ (∀ dec e, claudeweb.ClaudeWeb.CreateChatMessageStream dec (.error e)
        = [llm.StreamMsg.errMsg (.wrapped "CreateChatMessage failed with status_code" e)])
  ∧ (∀ f (bytes : List Nat) e,
      claudeweb.ClaudeWeb.CreateChatMessageStream (claudeweb.okDec f)
          (.ok (200, ⟨bytes, some e⟩))
        = (claudeweb.longLines (claudeweb.splitLines bytes).1).map
            (fun l => llm.StreamMsg.data (f (l.drop 6)))
          ++ [llm.StreamMsg.errMsg
               (.wrapped "createChatMessageStream read response body err" e)])
  ∧ (∀ dec pre bad post t e,
      (∀ l ∈ pre, 6 < l.length → (dec (l.drop 6)).isOk = true) →
      6 < bad.length → dec (bad.drop 6) = .error e →
      ∃ ds : List claudeweb.ChatMessageResponse,
        claudeweb.streamLoop dec (pre ++ bad :: post) t
          = ds.map llm.StreamMsg.data
            ++ [llm.StreamMsg.errMsg
                 (.wrapped "createChatMessageStream unmarshal response body err" e)]) := by
  refine ⟨fun e => rfl, ?_, ?_, fun dec e => rfl, ?_, ?_⟩
  · intro goods e trailing
    show claude.streamLoop _ = _
    rw [claude_streamLoop_goods]
    rfl
  · intro goods trailing
    show claude.streamLoop _ = _
    rw [claude_streamLoop_goods]
    rfl
  · intro f bytes e
    show claudeweb.streamLoop _ _ _ = _
    rw [claudeweb_streamLoop_okDec]
    rfl
  · exact claudeweb_streamLoop_firstBad

/-- C3 witness: a body consisting of the single 7-byte line whose payload fails
to decode yields exactly the wrapped unmarshal error as the terminal signal. -/
theorem c3_witness :
    ∃ ds : List claudeweb.ChatMessageResponse,
      claudeweb.streamLoop (fun _ => .error (.str "bad json"))
          ([] ++ [48, 48, 48, 48, 48, 48, 99] :: []) none
        = ds.map llm.StreamMsg.data
          ++ [llm.StreamMsg.errMsg
               (.wrapped "createChatMessageStream unmarshal response body err"
                 (.str "bad json"))] :=
  c3_failures_forwarded_without_retry.2.2.2.2.2
    (fun _ => .error (.str "bad json")) [] [48, 48, 48, 48, 48, 48, 99] [] none
    (.str "bad json") (fun l hl => absurd hl (List.not_mem_nil l)) (by decide) rfl

/-- C4 (code bug): the claim — the SSE relay loop stops on any error — holds for
`LLMHandler.chatStream` but not for `OpenAIHandler.chatStream`: at a stream
whose `Recv` yields a non-EOF error, the OpenAI relay loop silently discards
the error, writes an SSE frame for the zero-value response, and keeps relaying
the next message, whereas the LLM relay loop at the same error stops with an
error response and at io.EOF stops with the DONE frame. -/
theorem c4_relay_loop_on_error :
    (handler.OpenAIHandler.chatStream (handler.okMarshal fun _ => "r") handler.okWrite
        [(handler.zeroOpenAIStreamResponse, some (llm.GoError.str "connection reset")),
         (⟨"hello"⟩, none)]).1
      = ["data: r\n\n", "data: r\n\n"]
  ∧ handler.LLMHandler.chatStream (handler.okMarshal fun _ => "r") handler.okWrite
        [llm.StreamMsg.errMsg (llm.GoError.str "connection reset")]
      = ([], handler.SSEOutcome.internalError (llm.GoError.str "connection reset"))
  ∧ handler.LLMHandler.chatStream (handler.okMarshal fun _ => "r") handler.okWrite
        [llm.StreamMsg.errMsg llm.GoError.eof]
      = ([], handler.SSEOutcome.doneOk) :=
  ⟨rfl, rfl, rfl⟩

/-- C5: for a sequence of well-formed upstream chunks read until EOF, the
adapters forward exactly one data record per chunk, in the order the chunks
were read, followed by the io.EOF terminal — a one-to-one, order-preserving
translation with no chunk dropped, duplicated, or reordered, for both the
Bedrock adapter and the Together forwarding loop. -/
theorem c5_one_record_per_chunk_in_order :
    (∀ goods : List claude.BedrockResponse,
      claude.Client.CreateChatCompletionStream
          (.ok (goods.map fun r => claude.BedrockEvent.chunk (.ok r)))
        = goods.map (fun r => llm.StreamMsg.data r.ToChatCompletionStreamResponse)
            ++ [llm.StreamMsg.errMsg .eof])
  ∧ (∀ req (datas : List together.TogetherChatResponse),
      (together.Client.CreateChatCompletionStream req none
          (.ok (datas.map llm.StreamMsg.data ++ [llm.StreamMsg.errMsg .eof]))).2
        = datas.map (fun d => llm.StreamMsg.data d.ToChatCompletionStreamResponse)
            ++ [llm.StreamMsg.errMsg .eof]) := by
  constructor
  · intro goods
    show claude.streamLoop _ = _
    simpa using claude_streamLoop_goods goods []
  · intro req datas
    simp only [together.Client.CreateChatCompletionStream]
    rw [together_forwardLoop_map]

/-- C6: the messages a streaming producer emits are partitioned between the two
disjoint channels — every message is either a data record on the data channel
or an error/terminal value on the error channel — and the consumer's
select loop receives every message the producer sends, up to and including the
terminal signal, so no send of the producer's trace is left without a matching
receive. -/
theorem c6_disjoint_channels_consumer_drains :
    (∀ t : List (llm.StreamMsg llm.ChatCompletionStreamResponse),
        (llm.dataMsgs t).length + (llm.errMsgs t).length = t.length)
  ∧ (∀ (f : llm.ChatCompletionStreamResponse → String)
       (datas : List llm.ChatCompletionStreamResponse) (e : llm.GoError),
        handler.LLMHandler.consumed (handler.okMarshal f) handler.okWrite
            (datas.map llm.StreamMsg.data ++ [llm.StreamMsg.errMsg e])
          = (datas.map llm.StreamMsg.data ++ [llm.StreamMsg.errMsg e]).length) := by
  constructor
  · exact dataMsgs_errMsgs_length
  · intro f datas e
    rw [llmHandler_consumed_full]
    simp

/-- C7: for every list of chat messages, `CalculateTotalTokensFromMessages`
returns the sum, over the messages in order, of the token-encoding length of
each message's `Content`, and therefore returns 0 on the empty list. -/
theorem c7_total_tokens_is_sum_of_encoded_contents :
    ∀ (t : usage.Token) (messages : List usage.ChatCompletionMessage),
      t.CalculateTotalTokensFromMessages messages
          = (messages.map fun m => t.Encode m.content).sum
        ∧ t.CalculateTotalTokensFromMessages [] = 0 := by
  intro t messages
  constructor
  · have aux : ∀ (l : List usage.ChatCompletionMessage) (acc : Nat),
        l.foldl (fun totalTokens message => totalTokens + t.Encode message.content) acc
          = acc + (l.map fun m => t.Encode m.content).sum := by
      intro l
      induction l with
      | nil => intro acc; simp
      | cons m rest ih => intro acc; simp [ih, Nat.add_assoc]
    simpa using aux messages 0
  · rfl

/-- C8: `NewBardClient` rejects (nil client plus error, before any network
call) exactly the tokens that are empty or do not end with the character
dot, and proceeds to build the client exactly when the token is non-empty
and ends with a dot. -/
theorem c8_bard_token_validated_before_network :
    ∀ token : String,
      (bard.NewBardClient token = .proceed token
        ↔ token ≠ "" ∧ token.endsWith "." = true)
      ∧ ((∃ msg, bard.NewBardClient token = .rejected msg)
        ↔ (token = "" ∨ token.endsWith "." = false)) := by
  intro token
  unfold bard.NewBardClient
  by_cases h1 : token = "" <;> by_cases h2 : token.endsWith "." = true <;>
    simp [h1, h2]

/-- C9: the Together adapter overrides the caller's `Stream` flag before
translating the request: for every input request, regardless of its `Stream`
field, `CreateChatCompletion` builds the provider request with `Stream` false
and `CreateChatCompletionStream` builds it with `Stream` true. -/
theorem c9_together_overrides_stream_flag :
    ∀ (req : llm.ChatCompletionRequest) (me : Option llm.GoError)
      (callRes : Except llm.GoError (List (llm.StreamMsg together.TogetherChatResponse))),
      (together.Client.CreateChatCompletion req).stream = false
      ∧ (together.Client.CreateChatCompletionStream req me callRes).1.stream = true := by
  intro req me callRes
  refine ⟨rfl, ?_⟩
  cases me with
  | some e => rfl
  | none => cases callRes <;> rfl

/-- C10: for every upstream SSE body (a sequence of newline-terminated lines)
on which every line longer than 6 bytes decodes, `CreateChatMessage` succeeds
and the returned response's `Completion` equals the in-order concatenation of
the `Completion` fields decoded from the lines longer than 6 bytes, while
every line of 6 bytes or fewer contributes nothing; and the streaming variant
emits a data record exactly for each line longer than 6 bytes, in order,
skipping the short lines silently. -/
theorem c10_completion_concatenates_long_lines :
    (∀ (dec : List Nat → Except llm.GoError claudeweb.ChatMessageResponse)
       (bytes : List Nat),
      (claudeweb.splitLines bytes).2 = [] →
      (∀ l ∈ (claudeweb.splitLines bytes).1, 6 < l.length →
        ∃ r, dec (l.drop 6) = .ok r) →
      ∃ resp, claudeweb.ClaudeWeb.CreateChatMessage dec (.ok (200, ⟨bytes, none⟩))
          = .ok resp
        ∧ resp.completion
            = claudeweb.completionConcat dec (claudeweb.splitLines bytes).1)
  ∧ (∀ (f : List Nat → claudeweb.ChatMessageResponse) (bytes : List Nat),
      llm.dataMsgs (claudeweb.ClaudeWeb.CreateChatMessageStream (claudeweb.okDec f)
          (.ok (200, ⟨bytes, none⟩)))
        = (claudeweb.longLines (claudeweb.splitLines bytes).1).map
            (fun l => f (l.drop 6))) := by
  constructor
  · intro dec bytes hterm hdec
    obtain ⟨fin, hfin, hacc⟩ :=
      claudeweb_msgLoop_ok dec (claudeweb.splitLines bytes).1 ⟨"", ""⟩ "" hdec
    obtain ⟨last, acc⟩ := fin
    refine ⟨{ last with completion := acc }, ?_, ?_⟩
    · show (match claudeweb.msgLoop dec (claudeweb.splitLines bytes).1 ⟨"", ""⟩ "" with
        | .error e => Except.error e
        | .ok (last, acc) => Except.ok { last with completion := acc }) = _
      rw [hfin]
    · simpa [String.empty_append] using hacc
  · intro f bytes
    show llm.dataMsgs (claudeweb.streamLoop _ _ _) = _
    rw [claudeweb_streamLoop_okDec]
    exact dataMsgs_of_data_mapped (fun l => f (l.drop 6))
      (claudeweb.longLines (claudeweb.splitLines bytes).1) .eof

/-- C10 witness: the body "data: x\n\n" (a long line and an empty line) with a
decoder returning completion "hi" yields a response whose completion is the
concatenation over the single long line. -/
theorem c10_witness :
    ∃ resp, claudeweb.ClaudeWeb.CreateChatMessage (fun _ => .ok ⟨"hi", "sr"⟩)
        (.ok (200, ⟨[100, 97, 116, 97, 58, 32, 120, 10, 10], none⟩)) = .ok resp
      ∧ resp.completion
          = claudeweb.completionConcat (fun _ => .ok ⟨"hi", "sr"⟩)
              (claudeweb.splitLines [100, 97, 116, 97, 58, 32, 120, 10, 10]).1 :=
  c10_completion_concatenates_long_lines.1 (fun _ => .ok ⟨"hi", "sr"⟩)
    [100, 97, 116, 97, 58, 32, 120, 10, 10] rfl
    (fun _ _ _ => ⟨⟨"hi", "sr"⟩, rfl⟩)
